import Mathlib

/-!
Verification of the dead-lang transpiler core (lexer and statement tree)
against its specification.

The lexer (src/Lexer.cpp) is embedded as a cursor-driven state machine over
the source character list; the statement tree (src/Statement.cpp) as an
inductive type with a pure render function.  Character-consuming loops are
written with an explicit fuel argument equal to the number of remaining
characters, which makes every definition structurally recursive and hence
computable by the kernel; the fuel bound is exact because each loop
iteration consumes at least one character (except the buggy
identifier-accumulator case, which is exactly what the divergence theorem
below exhibits via the fuelled top-level loop `lexLoop`).

Components of the repository that are referenced but whose sources are not
part of the fragment (the `Iterator` cursor, `Token::create` /
`Token::create_dumb` / `Token::is_keyword`, `Typechecker`, `dts::split_str`,
and the `Supervisor` error sink) are modelled from the specification; each
such definition carries a doc comment saying so.
-/

namespace DeadLang

/-- Token kinds, following §6 of the specification (the closed set used by
src/Lexer.cpp, plus one entry per keyword; the keyword entries are modelled
from the spec, which names `mut` and the builtin type identifier `i32`). -/
inductive TokenType where
  | left_paren
  | right_paren
  | left_brace
  | right_brace
  | semicolon
  | comma
  | star
  | minus
  | arrow
  | minus_minus
  | equal
  | equal_equal
  | plus
  | plus_equal
  | less
  | less_equal
  | identifier
  | end_of_file
  | kw_mut
  | kw_i32
deriving DecidableEq, Repr

/-- A token: kind, lexeme, and a position range into the source buffer
(the C++ `Position{start, end}` pair is inlined as `startPos`/`endPos`). -/
structure Token where
  type : TokenType
  lexeme : String
  startPos : Nat
  endPos : Nat
deriving DecidableEq, Repr

/-- Modelled from the spec: `Token::create_dumb()` produces the sentinel
"dumb" token representing "no token"; it carries the `END_OF_FILE` kind so
that `lex` filters it from the returned sequence. -/
def dumbToken : Token := ⟨.end_of_file, "", 0, 0⟩

/-- Modelled from the spec: the closed, case-sensitive keyword table, which
"includes at least `mut` (mutability marker ...) and identifiers for each
BuiltinType" (§6); the spec exhibits the builtin type identifier `i32`. -/
def keywordTable : List (String × TokenType) := [("mut", .kw_mut), ("i32", .kw_i32)]

/-- Modelled from the spec: `Token::is_keyword` looks the lexeme up in the
keyword table; a lexeme not in the table resolves to a non-keyword sentinel
(the caller in src/Lexer.cpp line 104-107 treats both `IDENTIFIER` and
`END_OF_FILE` results as "not a keyword"). -/
def is_keyword (s : String) : TokenType :=
  match keywordTable.find? (fun kv => kv.1 = s) with
  | some kv => kv.2
  | none => .end_of_file

/-- Lexer state: the C++ `Lexer` object is an `Iterator` cursor over the
source plus the injected `Supervisor` error sink, of which the lexer only
reads the `has_errors()` flag (and never reports), so the sink is modelled
by that single boolean. -/
structure LexerSt where
  source : List Char
  pos : Nat
  errors : Bool
deriving DecidableEq, Repr

/-- Modelled from the spec: the cursor's `peek_ahead(k)` — the character `k`
places ahead of the cursor, or none past end-of-input. -/
def peekAt (st : LexerSt) (k : Nat) : Option Char := st.source[st.pos + k]?

/-- Modelled from the spec: the cursor's `peek()`. -/
def peek (st : LexerSt) : Option Char := peekAt st 0

/-- Modelled from the spec: the cursor's `eof()`. -/
def eof (st : LexerSt) : Bool := st.source.length ≤ st.pos

/-- Modelled from the spec: the cursor's `advance(k)`. -/
def advance (st : LexerSt) (k : Nat) : LexerSt := { st with pos := st.pos + k }

/-- Modelled from the spec: the cursor's `cursor()` — the current offset. -/
def cursor (st : LexerSt) : Nat := st.pos

/-- The whitespace set of `Lexer::skip_whitespaces` (src/Lexer.cpp line 80). -/
def isWsChar (c : Char) : Bool := c = ' ' || c = '\t' || c = '\r' || c = '\n'

/-- Fuelled body of `Lexer::skip_whitespaces` (src/Lexer.cpp lines 76-87):
while not at end-of-input, advance over space, tab, carriage return and
newline.  Each iteration consumes one character, so fuel equal to the
number of remaining characters makes the fuelled loop exact. -/
def skipWsAux : Nat → LexerSt → LexerSt
  | 0, st => st
  | n + 1, st =>
    match peek st with
    | none => st
    | some ch => if isWsChar ch then skipWsAux n (advance st 1) else st

/-- `Lexer::skip_whitespaces` (src/Lexer.cpp lines 76-87). -/
def skipWs (st : LexerSt) : LexerSt := skipWsAux (st.source.length - st.pos) st

/-- Fuelled accumulation loop of `Lexer::lex_keyword_or_identifier`
(src/Lexer.cpp lines 92-102): accumulate the maximal run of characters
matching `[A-Za-z0-9_]` (`std::isalnum(ch) != 0 || ch == '_'`). -/
def lexKwIdAux : Nat → LexerSt → String → String × LexerSt
  | 0, st, acc => (acc, st)
  | n + 1, st, acc =>
    match peek st with
    | none => (acc, st)
    | some ch =>
      if ch.isAlphanum || ch = '_' then lexKwIdAux n (advance st 1) (acc.push ch)
      else (acc, st)

/-- `Lexer::lex_keyword_or_identifier` (src/Lexer.cpp lines 89-110): record
the start offset, accumulate the identifier run, and emit the mapped
keyword kind when `is_keyword` resolves to a non-`IDENTIFIER`,
non-`END_OF_FILE` kind, otherwise `IDENTIFIER`. -/
def lex_keyword_or_identifier (st : LexerSt) : Token × LexerSt :=
  let start := cursor st
  let r := lexKwIdAux (st.source.length - st.pos) st ""
  let value := r.1
  let st' := r.2
  let keyword := is_keyword value
  if keyword ≠ .identifier ∧ keyword ≠ .end_of_file then
    (⟨keyword, value, start, cursor st'⟩, st')
  else
    (⟨.identifier, value, start, cursor st'⟩, st')

/-- `Lexer::lex_minus` (src/Lexer.cpp lines 112-125).  Comparing the
`std::optional` returned by `peek_ahead(1)` with a character is false when
the optional is empty, so a bare `-` at end-of-input takes the last branch. -/
def lex_minus (st : LexerSt) : Token × LexerSt :=
  let start := cursor st
  if peekAt st 1 = some '>' then
    let st' := advance st 2
    (⟨.arrow, "->", start, cursor st'⟩, st')
  else if peekAt st 1 = some '-' then
    let st' := advance st 2
    (⟨.minus_minus, "--", start, cursor st'⟩, st')
  else
    let st' := advance st 1
    (⟨.minus, "-", start, cursor st'⟩, st')

/-- `Lexer::lex_equal_sign` (src/Lexer.cpp lines 127-137). -/
def lex_equal_sign (st : LexerSt) : Token × LexerSt :=
  let start := cursor st
  if peekAt st 1 = some '=' then
    let st' := advance st 2
    (⟨.equal_equal, "==", start, cursor st'⟩, st')
  else
    let st' := advance st 1
    (⟨.equal, "=", start, cursor st'⟩, st')

/-- `Lexer::lex_star` (src/Lexer.cpp lines 139-143). -/
def lex_star (st : LexerSt) : Token × LexerSt :=
  let start := cursor st
  let st' := advance st 1
  (⟨.star, "*", start, cursor st'⟩, st')

/-- `Lexer::lex_plus` (src/Lexer.cpp lines 145-155). -/
def lex_plus (st : LexerSt) : Token × LexerSt :=
  let start := cursor st
  if peekAt st 1 = some '=' then
    let st' := advance st 2
    (⟨.plus_equal, "+=", start, cursor st'⟩, st')
  else
    let st' := advance st 1
    (⟨.plus, "+", start, cursor st'⟩, st')

/-- `Lexer::lex_less_than` (src/Lexer.cpp lines 157-167). -/
def lex_less_than (st : LexerSt) : Token × LexerSt :=
  let start := cursor st
  if peekAt st 1 = some '=' then
    let st' := advance st 2
    (⟨.less_equal, "<=", start, cursor st'⟩, st')
  else
    let st' := advance st 1
    (⟨.less, "<", start, cursor st'⟩, st')

/-- A single-character punctuation case of `Lexer::next_token`
(src/Lexer.cpp lines 31-63): `advance(1)` and then build the position from
`cursor()` twice, i.e. both offsets are one past the consumed character. -/
def punctToken (ty : TokenType) (lexeme : String) (st : LexerSt) : Token × LexerSt :=
  let st' := advance st 1
  (⟨ty, lexeme, cursor st', cursor st'⟩, st')

/-- `Lexer::next_token` (src/Lexer.cpp lines 20-74): return the dumb token
at once when the sink already has errors; skip whitespace; return the dumb
token at end-of-input; otherwise dispatch on the next character, falling
through to the identifier/keyword path. -/
def nextToken (st0 : LexerSt) : Token × LexerSt :=
  if st0.errors then (dumbToken, st0)
  else
    let st := skipWs st0
    match peek st with
    | none => (dumbToken, st)
    | some ch =>
      if ch = '(' then punctToken .left_paren "(" st
      else if ch = ')' then punctToken .right_paren ")" st
      else if ch = '-' then lex_minus st
      else if ch = '{' then punctToken .left_brace "\x7b" st
      else if ch = '}' then punctToken .right_brace "\x7d" st
      else if ch = '=' then lex_equal_sign st
      else if ch = ';' then punctToken .semicolon ";" st
      else if ch = '*' then lex_star st
      else if ch = ',' then punctToken .comma "," st
      else if ch = '+' then lex_plus st
      else if ch = '<' then lex_less_than st
      else lex_keyword_or_identifier st

/-- Fuelled version of the driver loop of `Lexer::lex` (src/Lexer.cpp lines
3-15): while not at end-of-input and the sink has no errors, take the next
token and keep it unless its kind is `END_OF_FILE`.  The boolean records
whether the loop reached its exit condition within the given fuel, so
`(lexLoop n st).2 = true` certifies that the unbounded C++ loop terminates
with exactly the returned token list, while `(lexLoop n st).2 = false` for
every `n` means the C++ loop never terminates. -/
def lexLoop : Nat → LexerSt → List Token × Bool
  | 0, _ => ([], false)
  | fuel + 1, st =>
    if eof st || st.errors then ([], true)
    else
      let r := nextToken st
      let rest := lexLoop fuel r.2
      (if r.1.type = .end_of_file then rest.1 else r.1 :: rest.1, rest.2)

/-- The initial lexer state for a source string and a sink whose
`has_errors()` flag is `errors` (a fresh sink has `errors = false`). -/
def initLexer (source : String) (errors : Bool) : LexerSt :=
  ⟨source.data, 0, errors⟩

/-- `Lexer::lex` (src/Lexer.cpp lines 3-15), run with fuel `length + 1`,
which is exact whenever every produced token consumes at least one
character. -/
def lex (source : String) (errors : Bool) : List Token :=
  (lexLoop (source.length + 1) (initLexer source errors)).1

/-- Modelled from the spec: `Typechecker::BuiltinType`, the closed
enumeration of source builtin types; the specification exhibits the value
`i32`. -/
inductive BuiltinType where
  | i32
deriving DecidableEq, Repr

/-- Modelled from the spec: `Typechecker::builtin_type_to_c_type` on the
enumeration — a pure, total table lookup; the spec gives `i32 ↦ int32_t`. -/
def builtin_type_to_c_type : BuiltinType → String
  | .i32 => "int32_t"

/-- Modelled from the spec: the overload of
`Typechecker::builtin_type_to_c_type` taking a source type identifier
string (used by `FunctionStatement::evaluate`); behaviour outside the
closed enumeration is a precondition violation of the caller, modelled
here as the identity. -/
def builtin_type_to_c_type_str (s : String) : String :=
  if s = "i32" then "int32_t" else s

/-- Modelled from the spec: `dts::split_str` (an external string utility),
splitting a string at every occurrence of the delimiter; the empty string
yields no items (scenario S6 renders a function with raw argument string
`""` as `main()`, so an empty input must produce an empty item list). -/
def split_str (s : String) (delim : Char) : List String :=
  if s.isEmpty then [] else (s.data.splitOn delim).map (fun cs => ⟨cs⟩)

/-- The statement tree of src/Statement.cpp.  The C++ `BlockStatement` is a
vector of child statements and appears inlined as `List Statement` fields;
string-typed attributes (expressions, raw argument lists, include
directives, member declarations) are carried opaquely exactly as in the
source. -/
inductive Statement where
  | empty
  | block (children : List Statement)
  | module (name : String) (c_includes : List String)
      (structs : List Statement) (functions : List Statement)
  | function (name : String) (args : String) (return_type : String)
      (body : List Statement)
  | if_ (condition : String) (then_block : List Statement) (else_block : List Statement)
  | ret (expression : String)
  | var (is_mutable : Bool) (type : BuiltinType) (type_extensions : String)
      (name : String) (expression : String)
  | plus_equal (name : String) (expression : String)
  | while_ (condition : String) (body : List Statement)
  | for_ (init_statement : Statement) (condition : String)
      (increment_statement : String) (body : List Statement)
  | expression (expression : String)
  | array (is_mutable : Bool) (type : BuiltinType) (type_extensions : String)
      (name : String) (elements : String)
  | index_operator (variable_name : String) (index : String) (expression : String)
  | function_call (name : String) (args : String)
  | struct (name : String) (member_variables : List String)

/-- The `dynamic_pointer_cast<EmptyStatement>` test of
`BlockStatement::evaluate` (src/Statement.cpp line 14): whether the node's
variant is Empty. -/
def Statement.isEmptyVariant : Statement → Bool
  | .empty => true
  | _ => false

/-- The include loop of `ModuleStatement::evaluate` (src/Statement.cpp
lines 38-40): each directive `d` contributes
`#include <d.substr(1, d.size() - 2)>\n`, i.e. `d` with its first and last
character stripped, between angle brackets. -/
def renderIncludes : List String → String
  | [] => ""
  | d :: rest => "#include <" ++ (d.drop 1).dropRight 1 ++ ">\n" ++ renderIncludes rest

/-- One item of the argument loop of `FunctionStatement::evaluate`
(src/Statement.cpp lines 69-88): split the item on spaces; the leading
piece `mut` marks mutability; the type is the piece after the optional
`mut`; the type extensions are the remaining pieces up to (excluding) the
last, concatenated; the name is the last piece.  Emit
`[const ]CTYPE EXTS NAME` with the extensions glued to the type. -/
def renderArg (argument : String) : String :=
  let pieces := split_str argument ' '
  let is_mutable : Nat := if pieces.headD "" = "mut" then 1 else 0
  let variable_type := pieces.getD is_mutable ""
  let type_extensions := String.join ((pieces.drop (1 + is_mutable)).dropLast)
  let variable_name := pieces.getLastD ""
  (if is_mutable = 1 then "" else "const ")
    ++ builtin_type_to_c_type_str variable_type ++ type_extensions ++ " " ++ variable_name

/-- The argument loop of `FunctionStatement::evaluate` (src/Statement.cpp
lines 69-88): render each item, appending `", "` after every item other
than the last (the C++ compares element addresses against
`arguments.back()`, which singles out exactly the final element). -/
def renderArgs : List String → String
  | [] => ""
  | [argument] => renderArg argument
  | argument :: rest => renderArg argument ++ ", " ++ renderArgs rest

/-- The member loop of `StructStatement::evaluate` (src/Statement.cpp lines
242-244). -/
def renderMembers : List String → String
  | [] => ""
  | m :: rest => "    " ++ m ++ ";\n" ++ renderMembers rest

mutual

/-- The `evaluate()` operations of src/Statement.cpp, one equation per
variant, translated line by line (`evalBlock` is
`BlockStatement::evaluate`, whose `std::accumulate` builds the same string
left to right). -/
def Statement.evaluate : Statement → String
  | .empty => ""
  | .block children => evalBlock children
  | .module _ c_includes structs functions =>
      renderIncludes c_includes ++ "\n" ++ evalBlock structs ++ "\n" ++ evalBlock functions
  | .function name args return_type body =>
      builtin_type_to_c_type_str return_type ++ " " ++ name ++ "("
        ++ renderArgs (split_str args ',') ++ ") \x7b\n" ++ evalBlock body ++ "\x7d\n"
  | .if_ condition then_block else_block =>
      "if (" ++ condition ++ ") \x7b\n" ++ evalBlock then_block
        ++ (if else_block.isEmpty then "" else "\x7d else \x7b\n" ++ evalBlock else_block)
        ++ "\x7d\n"
  | .ret expression => "return " ++ expression ++ ";"
  | .var is_mutable type type_extensions name expression =>
      (if is_mutable then "" else "const ") ++ builtin_type_to_c_type type
        ++ type_extensions ++ " " ++ name ++ " = " ++ expression ++ ";"
  | .plus_equal name expression => name ++ " += " ++ expression ++ ";"
  | .while_ condition body => "while (" ++ condition ++ ") \x7b\n" ++ evalBlock body ++ "\x7d\n"
  | .for_ init_statement condition increment_statement body =>
      "for (" ++ Statement.evaluate init_statement ++ " " ++ condition
        ++ increment_statement ++ ") \x7b\n" ++ evalBlock body ++ "\x7d\n"
  | .expression expression => expression ++ ";"
  | .array is_mutable type type_extensions name elements =>
      (if is_mutable then "" else "const ") ++ " " ++ builtin_type_to_c_type type
        ++ " " ++ name ++ type_extensions ++ " = \x7b " ++ elements ++ " \x7d;"
  | .index_operator variable_name index expression =>
      variable_name ++ "[" ++ index ++ "] = " ++ expression ++ ";"
  | .function_call name args => name ++ "(" ++ args ++ ");"
  | .struct name member_variables =>
      "typedef struct " ++ name ++ " \x7b\n" ++ renderMembers member_variables
        ++ "\x7d " ++ name ++ ";\n"

/-- `BlockStatement::evaluate` (src/Statement.cpp lines 11-20): concatenate
the children's renders in order, appending `"\n"` after every child whose
variant is not Empty. -/
def evalBlock : List Statement → String
  | [] => ""
  | s :: rest =>
      (if s.isEmptyVariant then Statement.evaluate s else Statement.evaluate s ++ "\n")
        ++ evalBlock rest

end

/-! String helper lemmas. -/

theorem string_join_cons (s : String) (l : List String) :
    String.join (s :: l) = s ++ String.join l := by
  apply String.ext
  simp

theorem string_append_assoc (a b c : String) : a ++ b ++ c = a ++ (b ++ c) := by
  apply String.ext
  simp

theorem string_intercalate_go_append (sep : String) (l : List String) :
    ∀ a b : String, String.intercalate.go (a ++ b) sep l = a ++ String.intercalate.go b sep l := by
  induction l with
  | nil => intro a b; rfl
  | cons x xs ih =>
    intro a b
    show String.intercalate.go (a ++ b ++ sep ++ x) sep xs = _
    rw [string_append_assoc (a ++ b), string_append_assoc a, ih,
      ← string_append_assoc b sep x]
    rfl

theorem string_intercalate_cons₂ (sep a b : String) (l : List String) :
    String.intercalate sep (a :: b :: l) = a ++ sep ++ String.intercalate sep (b :: l) := by
  show String.intercalate.go (a ++ sep ++ b) sep l
    = a ++ sep ++ String.intercalate.go b sep l
  exact string_intercalate_go_append sep l (a ++ sep) b

/-! Render lemmas for the statement tree. -/

theorem evalBlock_eq_join (children : List Statement) :
    evalBlock children =
      String.join (children.map fun s =>
        Statement.evaluate s ++ (if s.isEmptyVariant then "" else "\n")) := by
  induction children with
  | nil => rfl
  | cons s rest ih =>
    rw [List.map_cons, string_join_cons, ← ih, evalBlock]
    by_cases h : s.isEmptyVariant = true <;> simp [h]

theorem renderIncludes_eq_join (incs : List String) :
    renderIncludes incs =
      String.join (incs.map fun d => "#include <" ++ (d.drop 1).dropRight 1 ++ ">\n") := by
  induction incs with
  | nil => rfl
  | cons d rest ih => rw [List.map_cons, string_join_cons, ← ih]; rfl

theorem renderArgs_eq_intercalate (l : List String) :
    renderArgs l = String.intercalate ", " (l.map renderArg) := by
  induction l with
  | nil => rfl
  | cons a rest ih =>
    cases rest with
    | nil => rfl
    | cons b rest' =>
      show renderArg a ++ ", " ++ renderArgs (b :: rest') = _
      rw [ih]
      simp only [List.map_cons]
      rw [string_intercalate_cons₂]

/-- The per-item argument contract exactly as the specification words it
(spec §4.3, Function): "prepend `const ` unless the leading piece is `mut`;
emit the C-mapped type; concatenate any type-extension pieces immediately
after (no spaces); then one space; then the name", the pieces being the
item split on single spaces. -/
def argContract (item : String) : String :=
  let pieces := split_str item ' '
  if pieces.head? = some "mut" then
    builtin_type_to_c_type_str (pieces.getD 1 "")
      ++ String.join ((pieces.drop 2).dropLast) ++ " " ++ pieces.getLastD ""
  else
    "const " ++ builtin_type_to_c_type_str (pieces.getD 0 "")
      ++ String.join ((pieces.drop 1).dropLast) ++ " " ++ pieces.getLastD ""

theorem renderArg_eq_argContract (item : String) : renderArg item = argContract item := by
  unfold renderArg argContract
  cases hp : split_str item ' ' with
  | nil => simp
  | cons p ps =>
    by_cases h : p = "mut" <;> simp [h, String.join]

/-! Claim theorems for the statement tree. -/

/-- C2, counterexample: the claim says a mutable ArrayStatement renders to
`C_TYPE NAME EXT = { ELEMENTS };` with single spaces and no leading space,
but `ArrayStatement::evaluate` (src/Statement.cpp lines 202-212) formats
`"{} {} {}{} = {{ {} }};"` with the mutability prefix as the first
argument, so a mutable array renders with a leading space (and an
immutable one with two spaces after `const`): on the array
`mut i32 xs = { 1, 2 }` the code yields `" int32_t xs = {{ 1, 2 }};"`, not
the claimed string. -/
theorem array_render_claim_counterexample :
    Statement.evaluate (.array true .i32 "" "xs" "1, 2") = " int32_t xs = \x7b 1, 2 \x7d;" ∧
    Statement.evaluate (.array true .i32 "" "xs" "1, 2") ≠ "int32_t xs = \x7b 1, 2 \x7d;" := by
  constructor
  · rfl
  · decide

/-- C2, amended: for every ArrayStatement, render returns
`const  C_TYPE NAMEEXT = { ELEMENTS };` (with two spaces after `const`)
when the mutability flag is false and ` C_TYPE NAMEEXT = { ELEMENTS };`
(with one leading space) when it is true, where C_TYPE is the C mapping of
the BuiltinType and the type extension is concatenated directly after the
name with no separating space. -/
theorem array_render_amended (is_mutable : Bool) (type : BuiltinType)
    (type_extensions name elements : String) :
    Statement.evaluate (.array is_mutable type type_extensions name elements) =
      (if is_mutable then " " else "const  ") ++ builtin_type_to_c_type type
        ++ " " ++ name ++ type_extensions ++ " = \x7b " ++ elements ++ " \x7d;" := by
  cases is_mutable <;> (apply String.ext; simp [Statement.evaluate])

/-- C3: for every ModuleStatement, render returns: for each include
directive `d` in order, `#include <INNER>\n` where INNER is `d` with its
first and last character stripped; then a blank line; then the structs
Block's render; then a blank line; then the functions Block's render — and
the module name does not appear in the output (the render is independent
of it).  The hypothesis records the spec's invariant that directives are
stored with their surrounding brackets or quotes. -/
theorem module_render_contract (name : String) (c_includes : List String)
    (structs functions : List Statement) (h : ∀ d ∈ c_includes, 2 ≤ d.length) :
    Statement.evaluate (.module name c_includes structs functions) =
      String.join (c_includes.map fun d => "#include <" ++ (d.drop 1).dropRight 1 ++ ">\n")
        ++ "\n" ++ Statement.evaluate (.block structs) ++ "\n"
        ++ Statement.evaluate (.block functions) ∧
    ∀ name' : String,
      Statement.evaluate (.module name' c_includes structs functions) =
        Statement.evaluate (.module name c_includes structs functions) := by
  constructor
  · show renderIncludes c_includes ++ "\n" ++ evalBlock structs ++ "\n" ++ evalBlock functions = _
    rw [renderIncludes_eq_join]
    rfl
  · intro name'
    rfl

theorem module_render_contract_witness :
    Statement.evaluate (.module "m" ["<stdio.h>"] [] []) = "#include <stdio.h>\n\n\n" := by
  have h := (module_render_contract "m" ["<stdio.h>"] [] [] (by decide)).1
  rw [h]
  rfl

/-- C4: for every BlockStatement, render equals the in-order concatenation
of its children's renders, with `"\n"` appended after every child whose
variant is not Empty and nothing appended after Empty children
(src/Statement.cpp lines 11-20 checks the variant with
`dynamic_pointer_cast<EmptyStatement>`); an empty Block renders to the
empty string. -/
theorem block_render_composition (children : List Statement) :
    Statement.evaluate (.block children) =
      String.join (children.map fun s =>
        Statement.evaluate s ++ (if s.isEmptyVariant then "" else "\n")) ∧
    Statement.evaluate (.block []) = "" :=
  ⟨evalBlock_eq_join children, rfl⟩

/-- C5: for every FunctionStatement whose raw argument string splits on
commas into items each of which splits on single spaces into pieces of the
form `[mut] TYPE [EXT…] NAME` (at least TYPE and NAME, and at least three
pieces when the leading piece is `mut`), render emits for each item
`const ` unless the leading piece is `mut`, then the C-mapped type, then
the type-extension pieces concatenated with no spaces, then one space,
then the name; the items are joined with `", "` inside
`RET NAME(ARGS) {\n BODY}\n` (src/Statement.cpp lines 62-95). -/
theorem function_render_args (name return_type : String) (body : List Statement)
    (args : String)
    (h : ∀ item ∈ split_str args ',',
      2 ≤ (split_str item ' ').length ∧
        ((split_str item ' ').head? = some "mut" → 3 ≤ (split_str item ' ').length)) :
    Statement.evaluate (.function name args return_type body) =
      builtin_type_to_c_type_str return_type ++ " " ++ name ++ "("
        ++ String.intercalate ", " ((split_str args ',').map argContract)
        ++ ") \x7b\n" ++ Statement.evaluate (.block body) ++ "\x7d\n" := by
  show builtin_type_to_c_type_str return_type ++ " " ++ name ++ "("
      ++ renderArgs (split_str args ',') ++ ") \x7b\n" ++ evalBlock body ++ "\x7d\n" = _
  rw [renderArgs_eq_intercalate,
    show renderArg = argContract from funext renderArg_eq_argContract]
  rfl

theorem function_render_args_witness :
    Statement.evaluate (.function "f" "i32 a,mut i32 * b" "i32" []) =
      "int32_t f(const int32_t a, int32_t* b) \x7b\n\x7d\n" := by
  have h := function_render_args "f" "i32" [] "i32 a,mut i32 * b" (by decide)
  rw [h]
  rfl

/-! Lexer step lemmas. -/

/-- Soundness facts about one lexing step from state `st` producing result
`r`: the cursor does not move backwards, the source buffer and the sink's
flag are untouched, and any meaningful (non-`END_OF_FILE`) token starts no
earlier than the pre-step cursor and ends no later than the post-step
cursor. -/
def stepOk (st : LexerSt) (r : Token × LexerSt) : Prop :=
  st.pos ≤ r.2.pos ∧ r.2.errors = st.errors ∧ r.2.source = st.source ∧
    (r.1.type ≠ .end_of_file → st.pos ≤ r.1.startPos ∧ r.1.endPos ≤ r.2.pos)

theorem skipWsAux_spec (n : Nat) : ∀ st : LexerSt,
    st.pos ≤ (skipWsAux n st).pos ∧ (skipWsAux n st).source = st.source ∧
      (skipWsAux n st).errors = st.errors := by
  induction n with
  | zero => intro st; exact ⟨Nat.le_refl _, rfl, rfl⟩
  | succ k ih =>
    intro st
    cases hp : peek st with
    | none => simp [skipWsAux, hp]
    | some ch =>
      by_cases hw : isWsChar ch
      · obtain ⟨h1, h2, h3⟩ := ih (advance st 1)
        simp only [skipWsAux, hp, hw, if_true]
        exact ⟨Nat.le_trans (Nat.le_succ _) h1, h2, h3⟩
      · simp only [skipWsAux, hp, hw, if_false]
        exact ⟨Nat.le_refl _, rfl, rfl⟩

theorem skipWs_spec (st : LexerSt) :
    st.pos ≤ (skipWs st).pos ∧ (skipWs st).source = st.source ∧
      (skipWs st).errors = st.errors :=
  skipWsAux_spec _ st

theorem lexKwIdAux_spec (n : Nat) : ∀ (st : LexerSt) (acc : String),
    st.pos ≤ (lexKwIdAux n st acc).2.pos ∧ (lexKwIdAux n st acc).2.source = st.source ∧
      (lexKwIdAux n st acc).2.errors = st.errors := by
  induction n with
  | zero => intro st acc; exact ⟨Nat.le_refl _, rfl, rfl⟩
  | succ k ih =>
    intro st acc
    cases hp : peek st with
    | none => simp [lexKwIdAux, hp]
    | some ch =>
      by_cases hw : (ch.isAlphanum || ch = '_') = true
      · obtain ⟨h1, h2, h3⟩ := ih (advance st 1) (acc.push ch)
        simp only [lexKwIdAux, hp, hw, if_true]
        exact ⟨Nat.le_trans (Nat.le_succ _) h1, h2, h3⟩
      · simp only [lexKwIdAux, hp, hw, if_false]
        exact ⟨Nat.le_refl _, rfl, rfl⟩

theorem lex_keyword_or_identifier_stepOk (st : LexerSt) :
    stepOk st (lex_keyword_or_identifier st) := by
  obtain ⟨h1, h2, h3⟩ := lexKwIdAux_spec (st.source.length - st.pos) st ""
  unfold stepOk
  simp only [lex_keyword_or_identifier]
  split
  · exact ⟨h1, h3, h2, fun _ => ⟨Nat.le_refl _, Nat.le_refl _⟩⟩
  · exact ⟨h1, h3, h2, fun _ => ⟨Nat.le_refl _, Nat.le_refl _⟩⟩

theorem punctToken_stepOk (ty : TokenType) (lexeme : String) (st : LexerSt) :
    stepOk st (punctToken ty lexeme st) :=
  ⟨Nat.le_succ _, rfl, rfl, fun _ => ⟨Nat.le_succ _, Nat.le_refl _⟩⟩

theorem lex_minus_stepOk (st : LexerSt) : stepOk st (lex_minus st) := by
  unfold lex_minus stepOk
  split
  · exact ⟨Nat.le_add_right _ _, rfl, rfl, fun _ => ⟨Nat.le_refl _, Nat.le_refl _⟩⟩
  split
  · exact ⟨Nat.le_add_right _ _, rfl, rfl, fun _ => ⟨Nat.le_refl _, Nat.le_refl _⟩⟩
  · exact ⟨Nat.le_succ _, rfl, rfl, fun _ => ⟨Nat.le_refl _, Nat.le_refl _⟩⟩

theorem lex_equal_sign_stepOk (st : LexerSt) : stepOk st (lex_equal_sign st) := by
  unfold lex_equal_sign stepOk
  split
  · exact ⟨Nat.le_add_right _ _, rfl, rfl, fun _ => ⟨Nat.le_refl _, Nat.le_refl _⟩⟩
  · exact ⟨Nat.le_succ _, rfl, rfl, fun _ => ⟨Nat.le_refl _, Nat.le_refl _⟩⟩

theorem lex_star_stepOk (st : LexerSt) : stepOk st (lex_star st) :=
  ⟨Nat.le_succ _, rfl, rfl, fun _ => ⟨Nat.le_refl _, Nat.le_refl _⟩⟩

theorem lex_plus_stepOk (st : LexerSt) : stepOk st (lex_plus st) := by
  unfold lex_plus stepOk
  split
  · exact ⟨Nat.le_add_right _ _, rfl, rfl, fun _ => ⟨Nat.le_refl _, Nat.le_refl _⟩⟩
  · exact ⟨Nat.le_succ _, rfl, rfl, fun _ => ⟨Nat.le_refl _, Nat.le_refl _⟩⟩

theorem lex_less_than_stepOk (st : LexerSt) : stepOk st (lex_less_than st) := by
  unfold lex_less_than stepOk
  split
  · exact ⟨Nat.le_add_right _ _, rfl, rfl, fun _ => ⟨Nat.le_refl _, Nat.le_refl _⟩⟩
  · exact ⟨Nat.le_succ _, rfl, rfl, fun _ => ⟨Nat.le_refl _, Nat.le_refl _⟩⟩

theorem stepOk_of_skipWs (st : LexerSt) (r : Token × LexerSt)
    (h : stepOk (skipWs st) r) : stepOk st r := by
  obtain ⟨w1, w2, w3⟩ := skipWs_spec st
  obtain ⟨h1, h2, h3, h4⟩ := h
  exact ⟨Nat.le_trans w1 h1, h2.trans w3, h3.trans w2,
    fun hne => ⟨Nat.le_trans w1 (h4 hne).1, (h4 hne).2⟩⟩

theorem nextToken_stepOk (st : LexerSt) : stepOk st (nextToken st) := by
  unfold nextToken
  by_cases he : st.errors
  · simp only [he, if_true]
    exact ⟨Nat.le_refl _, rfl, rfl, fun hne => absurd rfl hne⟩
  · simp only [he, if_false]
    refine stepOk_of_skipWs st _ ?_
    cases hp : peek (skipWs st) with
    | none => exact ⟨Nat.le_refl _, rfl, rfl, fun hne => absurd rfl hne⟩
    | some ch =>
      by_cases h1 : ch = '('
      · simpa [h1] using punctToken_stepOk .left_paren "(" (skipWs st)
      by_cases h2 : ch = ')'
      · simpa [h1, h2] using punctToken_stepOk .right_paren ")" (skipWs st)
      by_cases h3 : ch = '-'
      · simpa [h1, h2, h3] using lex_minus_stepOk (skipWs st)
      by_cases h4 : ch = '{'
      · simpa [h1, h2, h3, h4] using punctToken_stepOk .left_brace "\x7b" (skipWs st)
      by_cases h5 : ch = '}'
      · simpa [h1, h2, h3, h4, h5] using punctToken_stepOk .right_brace "\x7d" (skipWs st)
      by_cases h6 : ch = '='
      · simpa [h1, h2, h3, h4, h5, h6] using lex_equal_sign_stepOk (skipWs st)
      by_cases h7 : ch = ';'
      · simpa [h1, h2, h3, h4, h5, h6, h7] using punctToken_stepOk .semicolon ";" (skipWs st)
      by_cases h8 : ch = '*'
      · simpa [h1, h2, h3, h4, h5, h6, h7, h8] using lex_star_stepOk (skipWs st)
      by_cases h9 : ch = ','
      · simpa [h1, h2, h3, h4, h5, h6, h7, h8, h9] using punctToken_stepOk .comma "," (skipWs st)
      by_cases h10 : ch = '+'
      · simpa [h1, h2, h3, h4, h5, h6, h7, h8, h9, h10] using lex_plus_stepOk (skipWs st)
      by_cases h11 : ch = '<'
      · simpa [h1, h2, h3, h4, h5, h6, h7, h8, h9, h10, h11] using
          lex_less_than_stepOk (skipWs st)
      · simpa [h1, h2, h3, h4, h5, h6, h7, h8, h9, h10, h11] using
          lex_keyword_or_identifier_stepOk (skipWs st)

theorem lexLoop_chain (fuel : Nat) : ∀ st : LexerSt,
    List.Chain' (fun a b => a.endPos ≤ b.startPos) (lexLoop fuel st).1 ∧
      ∀ t ∈ (lexLoop fuel st).1, st.pos ≤ t.startPos := by
  induction fuel with
  | zero => intro st; exact ⟨List.chain'_nil, by intro t ht; cases ht⟩
  | succ k ih =>
    intro st
    simp only [lexLoop]
    by_cases hstop : (eof st || st.errors) = true
    · simp only [hstop, if_true]
      exact ⟨List.chain'_nil, by intro t ht; cases ht⟩
    · simp only [hstop, if_false]
      obtain ⟨s1, s2, s3, s4⟩ := nextToken_stepOk st
      obtain ⟨c1, c2⟩ := ih (nextToken st).2
      by_cases heof : (nextToken st).1.type = .end_of_file
      · simp only [heof, if_true]
        exact ⟨c1, fun t ht => Nat.le_trans s1 (c2 t ht)⟩
      · simp only [heof, if_false]
        obtain ⟨b1, b2⟩ := s4 heof
        refine ⟨List.chain'_cons'.2 ⟨?_, c1⟩, ?_⟩
        · intro y hy
          exact Nat.le_trans b2 (c2 y (List.mem_of_mem_head? hy))
        · intro t ht
          rcases List.mem_cons.1 ht with h | h
          · exact h ▸ b1
          · exact Nat.le_trans s1 (c2 t h)

/-! Claim theorems for the lexer. -/

/-- C1 refuted on the code (code bug): on input `"!"` with a fresh sink,
`lex_keyword_or_identifier` accumulates zero characters (`'!'` is neither
alphanumeric nor `'_'`) and therefore never advances the cursor, so the
driver loop of `Lexer::lex` (src/Lexer.cpp lines 7-12) never reaches its
exit condition: for every fuel bound, the fuelled loop reports
non-completion, i.e. the unbounded C++ loop does not terminate.  The spec
requires totality and says implementations MUST guard the zero-character
case; the code has no such guard. -/
theorem lex_diverges_on_unlexable_char :
    ∀ fuel : Nat, (lexLoop fuel (initLexer "!" false)).2 = false := by
  intro fuel
  induction fuel with
  | zero => rfl
  | succ n ih =>
    exact Eq.trans
      (show (lexLoop (n + 1) (initLexer "!" false)).2
          = (lexLoop n (initLexer "!" false)).2 from rfl) ih

/-- C6: the identifier-or-keyword path emits `IDENTIFIER` if and only if
the accumulated lexeme is not in the keyword table, otherwise the mapped
keyword kind, and never `END_OF_FILE`; concretely, input
`"mut foo_bar mutation"` yields kinds
`[KEYWORD(mut), IDENTIFIER, IDENTIFIER]` with the longest-match rule
keeping `mutation` whole. -/
theorem keyword_priority (st : LexerSt) :
    (((lex_keyword_or_identifier st).1.type = .identifier ↔
        (lex_keyword_or_identifier st).1.lexeme ∉ keywordTable.map Prod.fst) ∧
      (lex_keyword_or_identifier st).1.type ≠ .end_of_file ∧
      ((lex_keyword_or_identifier st).1.lexeme ∈ keywordTable.map Prod.fst →
        (lex_keyword_or_identifier st).1.type =
          is_keyword (lex_keyword_or_identifier st).1.lexeme)) ∧
    (lex "mut foo_bar mutation" false).map Token.type =
        [.kw_mut, .identifier, .identifier] ∧
    (lex "mut foo_bar mutation" false).map Token.lexeme = ["mut", "foo_bar", "mutation"] := by
  refine ⟨?_, by decide, by decide⟩
  simp only [lex_keyword_or_identifier]
  generalize (lexKwIdAux (st.source.length - st.pos) st "").1 = v
  by_cases h1 : v = "mut"
  · simp [h1, is_keyword, keywordTable]
  by_cases h2 : v = "i32"
  · simp [h1, h2, is_keyword, keywordTable]
  · simp [h1, h2, is_keyword, keywordTable, List.find?, Ne.symm h1, Ne.symm h2]

theorem keyword_priority_witness :
    (lex_keyword_or_identifier (initLexer "mut" false)).1.type =
      is_keyword (lex_keyword_or_identifier (initLexer "mut" false)).1.lexeme :=
  (keyword_priority (initLexer "mut" false)).1.2.2 (by decide)

/-- C7: when the next character is `'-'`, the lexer emits `ARROW` advancing
two places if the following character is `'>'`, `MINUS_MINUS` advancing two
if it is `'-'`, and `MINUS` advancing one otherwise — including when the
`'-'` is the last character (then `peek_ahead(1)` is empty and compares
unequal to both); input `"- -> --"` yields kinds
`[MINUS, ARROW, MINUS_MINUS]` with lexemes `["-", "->", "--"]`. -/
theorem minus_disambiguation (st : LexerSt) :
    (peekAt st 1 = some '>' →
      lex_minus st = (⟨.arrow, "->", st.pos, st.pos + 2⟩, advance st 2)) ∧
    (peekAt st 1 ≠ some '>' → peekAt st 1 = some '-' →
      lex_minus st = (⟨.minus_minus, "--", st.pos, st.pos + 2⟩, advance st 2)) ∧
    (peekAt st 1 ≠ some '>' → peekAt st 1 ≠ some '-' →
      lex_minus st = (⟨.minus, "-", st.pos, st.pos + 1⟩, advance st 1)) ∧
    (peekAt st 1 = none →
      lex_minus st = (⟨.minus, "-", st.pos, st.pos + 1⟩, advance st 1)) ∧
    (lex "- -> --" false).map Token.type = [.minus, .arrow, .minus_minus] ∧
    (lex "- -> --" false).map Token.lexeme = ["-", "->", "--"] := by
  refine ⟨?_, ?_, ?_, ?_, by decide, by decide⟩
  · intro h
    simp [lex_minus, h, cursor, advance]
  · intro h h'
    simp [lex_minus, h, h', cursor, advance]
  · intro h h'
    simp [lex_minus, h, h', cursor, advance]
  · intro h
    have h1 : peekAt st 1 ≠ some '>' := by simp [h]
    have h2 : peekAt st 1 ≠ some '-' := by simp [h]
    simp [lex_minus, h1, h2, cursor, advance]

theorem minus_disambiguation_witness :
    lex_minus (initLexer "-" false) =
      (⟨.minus, "-", 0, 1⟩, advance (initLexer "-" false) 1) :=
  (minus_disambiguation (initLexer "-" false)).2.2.2.1 (by decide)

/-- C8: the lexer reports through the sink rather than throwing (in the
embedding all operations are total); once the sink's `has_errors()` flag is
set, `next_token` returns the dumb token immediately without consuming
input (src/Lexer.cpp line 21); the lexer itself never changes the sink's
flag, so with a fresh sink no error is ever reported and the loop of `lex`
returns every token produced before the exit, while a sink that already
has errors makes `lex` return the empty prefix at once. -/
theorem lexer_error_quiescence :
    (∀ st : LexerSt, st.errors = true → nextToken st = (dumbToken, st)) ∧
    (∀ st : LexerSt, ((nextToken st).2).errors = st.errors) ∧
    (∀ (source : String) (fuel : Nat), 1 ≤ fuel →
      lexLoop fuel (initLexer source true) = ([], true)) := by
  refine ⟨?_, ?_, ?_⟩
  · intro st h
    simp [nextToken, h]
  · intro st
    exact (nextToken_stepOk st).2.1
  · intro source fuel hfuel
    obtain ⟨k, rfl⟩ : ∃ k, fuel = k + 1 := ⟨fuel - 1, by omega⟩
    simp [lexLoop, initLexer]

theorem lexer_error_quiescence_witness :
    nextToken ⟨['a'], 0, true⟩ = (dumbToken, ⟨['a'], 0, true⟩) ∧
    lexLoop 5 (initLexer "a" true) = ([], true) :=
  ⟨lexer_error_quiescence.1 ⟨['a'], 0, true⟩ rfl,
    lexer_error_quiescence.2.2 "a" 5 (by omega)⟩

/-- C9: for every input source (and any fuel bound for the fuelled driver
loop), any two adjacent tokens `t_i, t_{i+1}` returned by `lex` with a
fresh sink satisfy `t_i.end ≤ t_{i+1}.start`. -/
theorem positional_monotonicity (source : String) (fuel : Nat) :
    List.Chain' (fun a b => a.endPos ≤ b.startPos) (lex source false) ∧
    List.Chain' (fun a b => a.endPos ≤ b.startPos)
      (lexLoop fuel (initLexer source false)).1 :=
  ⟨(lexLoop_chain _ _).1, (lexLoop_chain _ _).1⟩

/-- C10: the single-character punctuation cases of `next_token`
(`LEFT_PAREN`, `RIGHT_PAREN`, `LEFT_BRACE`, `RIGHT_BRACE`, `SEMICOLON`,
`COMMA`) call `advance(1)` before building the position from the cursor
twice, so both offsets equal the cursor one past the consumed character;
the star, minus, equal, plus, less-than and identifier paths record the
pre-token cursor (after whitespace skipping) as the start offset. -/
theorem lex_minus_start (st : LexerSt) : (lex_minus st).1.startPos = st.pos := by
  unfold lex_minus
  split
  · rfl
  · split <;> rfl

theorem lex_equal_sign_start (st : LexerSt) : (lex_equal_sign st).1.startPos = st.pos := by
  unfold lex_equal_sign
  split <;> rfl

theorem lex_star_start (st : LexerSt) : (lex_star st).1.startPos = st.pos := rfl

theorem lex_plus_start (st : LexerSt) : (lex_plus st).1.startPos = st.pos := by
  unfold lex_plus
  split <;> rfl

theorem lex_less_than_start (st : LexerSt) : (lex_less_than st).1.startPos = st.pos := by
  unfold lex_less_than
  split <;> rfl

theorem lex_keyword_or_identifier_start (st : LexerSt) :
    (lex_keyword_or_identifier st).1.startPos = st.pos := by
  simp only [lex_keyword_or_identifier]
  split <;> rfl

theorem single_char_token_positions (st : LexerSt) (herr : st.errors = false) :
    (∀ c ∈ ['(', ')', '{', '}', ';', ','], peek (skipWs st) = some c →
      (nextToken st).1.startPos = (skipWs st).pos + 1 ∧
        (nextToken st).1.endPos = (skipWs st).pos + 1) ∧
    (∀ c ∈ ['*', '-', '=', '+', '<'], peek (skipWs st) = some c →
      (nextToken st).1.startPos = (skipWs st).pos) ∧
    (∀ c : Char, peek (skipWs st) = some c →
      c ∉ ['(', ')', '{', '}', ';', ',', '*', '-', '=', '+', '<'] →
      (nextToken st).1.startPos = (skipWs st).pos) := by
  refine ⟨?_, ?_, ?_⟩
  · intro c hc hp
    fin_cases hc <;>
      simp [nextToken, herr, hp, punctToken, advance, cursor]
  · intro c hc hp
    fin_cases hc <;>
      simp [nextToken, herr, hp, lex_star_start, lex_minus_start, lex_equal_sign_start,
        lex_plus_start, lex_less_than_start]
  · intro c hp hc
    simp only [List.mem_cons, not_or] at hc
    obtain ⟨n1, n2, n3, n4, n5, n6, n7, n8, n9, n10, n11, -⟩ := hc
    simp [nextToken, herr, hp, n1, n2, n3, n4, n5, n6, n7, n8, n9, n10, n11,
      lex_keyword_or_identifier_start]

theorem single_char_token_positions_witness :
    (nextToken (initLexer "(" false)).1.startPos = (skipWs (initLexer "(" false)).pos + 1 ∧
      (nextToken (initLexer "(" false)).1.endPos = (skipWs (initLexer "(" false)).pos + 1 :=
  (single_char_token_positions (initLexer "(" false) rfl).1 '(' (by decide) (by decide)

end DeadLang
